import Mathlib

/-!
Verification development for the top-camera perception core of the
CollecteBalle repository.

Two components are embedded, straight from the Python sources:

* the ball tracker (`terrain_balls.py`, with the `Ball` record of
  `ball2.py`): frame-to-frame greedy data association over integer pixel
  coordinates;
* the robot pose estimator (`robot_detector.py`): single-blob marker
  detection and the two-marker position/heading update.

Machine integers of the source are modelled as `Int`/`Nat` (Python
integers are unbounded, so no wrap-around is involved).  Python code that
can raise an exception is modelled with `Option` (`none` = an exception
escapes).  The one floating-point subtlety of the tracker — `np.sqrt` of
an integer — is handled by comparing squared distances: for nonnegative
reals, `sqrt a < sqrt b` iff `a < b`, and `sqrt d < 5000` iff
`d < 5000 ^ 2 = 25000000`, so every comparison the Python code performs
on square roots is performed here on the exact integer squares.
-/

namespace TopCamera

/-- A 2D integer pixel point, as the `[int(cx), int(cy)]` pairs that
`_detect_balls` appends to `ball_centers`. -/
structure Point where
  x : Int
  y : Int
deriving DecidableEq, Repr

/-- The `Ball` record of `ball2.py` (imported by `terrain_balls.py` as
module `ball`): fields `time0`, `elapsedTime`, `score`, `position`, `id`
in source order. -/
structure Ball where
  time0 : Int
  elapsedTime : Int
  score : Int
  position : Point
  id : Nat
deriving DecidableEq, Repr

/-- Python `Ball.__init__(self, id, timeStamp, X)` from `ball2.py`:
`time0 = timeStamp`, `elapsedTime = 0`, `score = 0`, `position = X`,
`id = id`. -/
def Ball.init (id : Nat) (timeStamp : Int) (X : Point) : Ball :=
  ⟨timeStamp, 0, 0, X, id⟩

/-- The position setter called `set_position` in `terrain_balls.py`
(the `ball` module itself is not in the repository snapshot; modelled
from the spec: "assign that detection's coordinates as the track's new
position", matching `get_new_position` of `ball2.py`:
`self.position = X`). -/
def Ball.set_position (b : Ball) (X : Point) : Ball :=
  { b with position := X }

/-- The time setter called `set_time` in `terrain_balls.py` (modelled
from the spec: the track's last-seen time is advanced to the frame
timestamp, matching `get_new_time` of `ball2.py`:
`self.elapsedTime = timeStamp - self.time0`). -/
def Ball.set_time (b : Ball) (timeStamp : Int) : Ball :=
  { b with elapsedTime := timeStamp - b.time0 }

/-- The squared Euclidean distance
`(c[0] - position[0]) ** 2 + (c[1] - position[1]) ** 2` appearing (under
`np.sqrt`) in `TerrainBalls._find_match`. -/
def dist2 (c p : Point) : Int :=
  (c.x - p.x) ^ 2 + (c.y - p.y) ^ 2

/-- The scanning loop of `TerrainBalls._find_match`:
`for i in range(len(ball_centers)): n = sqrt(dist2 ...); if n < min: min = n;
closest_ball = i`.  State: current index `i`, current `min` and current
`closest_ball` (`none` while unassigned).  The comparison `n < min` on
square roots is performed on the exact integer squares (`min` starts at
`5000`, squared `25000000`); this is equivalent since `Real.sqrt` is
strictly monotone on nonnegatives.  Returning `none` means the Python
variable `closest_ball` was never assigned. -/
def findLoop (pos : Point) : List Point → Nat → Int → Option Nat → Option Nat
  | [], _, _, best => best
  | c :: cs, i, minv, best =>
    if dist2 c pos < minv then findLoop pos cs (i + 1) (dist2 c pos) (some i)
    else findLoop pos cs (i + 1) minv best

/-- Python `TerrainBalls._find_match(self, ball, ball_centers)`: returns `-1`
when `ball_centers` is empty, otherwise runs the scanning loop with
`min = 5000` and returns `closest_ball`.  When the loop never assigns
`closest_ball` (every squared distance is `≥ 5000 ^ 2`), the Python
`return closest_ball` raises `UnboundLocalError`; that outcome is
modelled as `none`. -/
def find_match (ball : Ball) (ball_centers : List Point) : Option Int :=
  if ball_centers.length = 0 then
    some (-1)
  else
    (findLoop ball.position ball_centers 0 25000000 none).map Int.ofNat

/-- The matching phase of `TerrainBalls._detect_balls`:
`for i in range(self.nb_balls): k = self._find_match(self.balls[i],
ball_centers); if k != -1: self.balls[i].set_position(ball_centers[k]);
ball_centers.pop(k)`.  The counter argument is `self.nb_balls`; running
past the end of `self.balls` would be a Python `IndexError`, and any
exception is propagated as `none`.  Returns the updated ball list and the
remaining (unclaimed) detection pool. -/
def matchLoop : Nat → List Ball → List Point → Option (List Ball × List Point)
  | 0, balls, centers => some (balls, centers)
  | _ + 1, [], _ => none
  | nb + 1, b :: rest, centers =>
    match find_match b centers with
    | none => none
    | some k =>
      if k = -1 then
        match matchLoop nb rest centers with
        | none => none
        | some (bs, rem) => some (b :: bs, rem)
      else
        match centers[k.toNat]? with
        | none => none
        | some c =>
          match matchLoop nb rest (centers.eraseIdx k.toNat) with
          | none => none
          | some (bs, rem) => some (b.set_position c :: bs, rem)

/-- The growth phase of `TerrainBalls._detect_balls`:
`for j in range(len(ball_centers)): self.nb_balls += 1;
self.balls.append(Ball(self.nb_balls, self.time, ball_centers[j]))`,
run over the detections left unclaimed by the matching phase.  Arguments:
frame time, current ball list, current `nb_balls`, remaining pool. -/
def growLoop (time : Int) : List Ball → Nat → List Point → List Ball × Nat
  | balls, nb, [] => (balls, nb)
  | balls, nb, c :: cs => growLoop time (balls ++ [Ball.init (nb + 1) time c]) (nb + 1) cs

/-- The tracker state of `TerrainBalls.__init__`: fields `time`, `score`,
`balls`, `nb_balls` (the image, camera node and path planner are external
collaborators and carry no tracking state). -/
structure TerrainBalls where
  time : Int
  score : Int
  balls : List Ball
  nb_balls : Nat
deriving DecidableEq, Repr

/-- Python `TerrainBalls.__init__(self, timeStamp)`: `time = timeStamp`,
`score = 0`, `balls = []`, `nb_balls = 0`. -/
def init_state (timeStamp : Int) : TerrainBalls :=
  ⟨timeStamp, 0, [], 0⟩

/-- Python `TerrainBalls._detect_balls` from the point where the detection list
`ball_centers` has been extracted from the image (the OpenCV segmentation
upstream is an external collaborator): `n = len(ball_centers)`, the
matching phase, the growth phase guarded by `self.nb_balls < n`, and the
final `for b in self.balls: b.set_time(self.time)` pass (whose drawing
and path-planning side effects touch no tracker state).  `none` models an
exception escaping to the caller. -/
def detect_balls (st : TerrainBalls) (ball_centers : List Point) : Option TerrainBalls :=
  let n := ball_centers.length
  match matchLoop st.nb_balls st.balls ball_centers with
  | none => none
  | some (bs, rem) =>
    let g := if st.nb_balls < n then growLoop st.time bs st.nb_balls rem else (bs, st.nb_balls)
    some { st with balls := g.1.map (fun b => b.set_time st.time), nb_balls := g.2 }

/-- Python `TerrainBalls._update(self, img, timeStamp)`, restricted to tracker
state: `self.time = timeStamp` followed by `self._detect_balls(...)`
applied to the frame's extracted detection set. -/
def update (st : TerrainBalls) (ball_centers : List Point) (timeStamp : Int) :
    Option TerrainBalls :=
  detect_balls { st with time := timeStamp } ball_centers

/-- A sequence of frames fed to `_update` in arrival order; `none` as soon
as one update raises. -/
def run (st : TerrainBalls) : List (List Point × Int) → Option TerrainBalls
  | [] => some st
  | (cs, t) :: rest =>
    match update st cs t with
    | none => none
    | some st1 => run st1 rest

theorem set_position_id (b : Ball) (X : Point) : (b.set_position X).id = b.id := rfl

theorem set_position_position (b : Ball) (X : Point) :
    (b.set_position X).position = X := rfl

theorem set_time_id (b : Ball) (t : Int) : (b.set_time t).id = b.id := rfl

theorem set_time_position (b : Ball) (t : Int) :
    (b.set_time t).position = b.position := rfl

theorem set_time_time0 (b : Ball) (t : Int) : (b.set_time t).time0 = b.time0 := rfl

theorem findLoop_lt (pos : Point) (cs : List Point) (i : Nat) (minv : Int)
    (best : Option Nat) (j : Nat)
    (hbest : ∀ jb, best = some jb → jb < i)
    (h : findLoop pos cs i minv best = some j) : j < i + cs.length := by
  induction cs generalizing i minv best with
  | nil =>
    simp only [findLoop] at h
    have := hbest j h
    simpa using Nat.lt_of_lt_of_le this (Nat.le_add_right i 0)
  | cons c cs ih =>
    simp only [findLoop] at h
    split at h
    · have := ih (i + 1) (dist2 c pos) (some i)
        (by intro jb hjb; cases hjb; omega) h
      simp only [List.length_cons]
      omega
    · have := ih (i + 1) minv best
        (by intro jb hjb; exact Nat.lt_succ_of_lt (hbest jb hjb)) h
      simp only [List.length_cons]
      omega

theorem find_match_nil (b : Ball) : find_match b [] = some (-1) := rfl

theorem find_match_nonempty (b : Ball) (cs : List Point) (k : Int)
    (hcs : cs ≠ []) (h : find_match b cs = some k) :
    0 ≤ k ∧ k.toNat < cs.length := by
  rw [find_match, if_neg (by simpa using hcs)] at h
  rcases Option.map_eq_some'.mp h with ⟨j, hj, rfl⟩
  refine ⟨Int.ofNat_nonneg j, ?_⟩
  have := findLoop_lt b.position cs 0 25000000 none j (by intro jb hjb; cases hjb) hj
  simpa using this

/-- Inversion principle for one step of the matching phase: either the
pool is empty (the `k = -1` branch of the source) and the head ball is
kept as is, or a valid index was matched, the head ball moved there and
the matched detection popped. -/
theorem matchLoop_succ_cons (nb : Nat) (b : Ball) (rest : List Ball)
    (cs : List Point) (bs : List Ball) (rem : List Point)
    (h : matchLoop (nb + 1) (b :: rest) cs = some (bs, rem)) :
    (cs = [] ∧ ∃ bs', matchLoop nb rest cs = some (bs', rem) ∧ bs = b :: bs') ∨
    (∃ j : Nat, j < cs.length ∧ ∃ c, cs[j]? = some c ∧
      ∃ bs', matchLoop nb rest (cs.eraseIdx j) = some (bs', rem) ∧
        bs = b.set_position c :: bs') := by
  simp only [matchLoop] at h
  split at h
  · exact absurd h (by simp)
  · rename_i k hfm
    split at h
    · rename_i hk
      subst hk
      have hcs : cs = [] := by
        by_contra hne
        have := (find_match_nonempty b cs (-1) hne hfm).1
        omega
      split at h
      · exact absurd h (by simp)
      · rename_i bs' rem' hml
        left
        refine ⟨hcs, bs', ?_, ?_⟩
        · rw [hml]
          simp only [Option.some.injEq, Prod.mk.injEq] at h
          rw [h.2]
        · simp only [Option.some.injEq, Prod.mk.injEq] at h
          rw [← h.1]
    · rename_i hk
      have hcs : cs ≠ [] := by
        rintro rfl
        rw [find_match_nil] at hfm
        simp only [Option.some.injEq] at hfm
        exact hk hfm.symm
      obtain ⟨hk0, hklt⟩ := find_match_nonempty b cs k hcs hfm
      split at h
      · rename_i hget
        rw [List.getElem?_eq_getElem hklt] at hget
        exact absurd hget (by simp)
      · rename_i c hget
        split at h
        · exact absurd h (by simp)
        · rename_i bs' rem' hml
          right
          refine ⟨k.toNat, hklt, c, hget, bs', ?_, ?_⟩
          · rw [hml]
            simp only [Option.some.injEq, Prod.mk.injEq] at h
            rw [h.2]
          · simp only [Option.some.injEq, Prod.mk.injEq] at h
            rw [← h.1]

theorem matchLoop_zero (balls : List Ball) (cs : List Point) :
    matchLoop 0 balls cs = some (balls, cs) := rfl

theorem matchLoop_length (nb : Nat) (balls : List Ball) (cs : List Point)
    (bs : List Ball) (rem : List Point)
    (h : matchLoop nb balls cs = some (bs, rem)) : bs.length = balls.length := by
  induction nb generalizing balls cs bs rem with
  | zero =>
    rw [matchLoop_zero] at h
    simp only [Option.some.injEq, Prod.mk.injEq] at h
    rw [← h.1]
  | succ nb ih =>
    cases balls with
    | nil => simp [matchLoop] at h
    | cons b rest =>
      rcases matchLoop_succ_cons nb b rest cs bs rem h with
        ⟨_, bs', hml, rfl⟩ | ⟨j, _, c, _, bs', hml, rfl⟩ <;>
        simp [ih _ _ _ _ hml]

theorem matchLoop_ids (nb : Nat) (balls : List Ball) (cs : List Point)
    (bs : List Ball) (rem : List Point)
    (h : matchLoop nb balls cs = some (bs, rem)) :
    bs.map Ball.id = balls.map Ball.id := by
  induction nb generalizing balls cs bs rem with
  | zero =>
    rw [matchLoop_zero] at h
    simp only [Option.some.injEq, Prod.mk.injEq] at h
    rw [← h.1]
  | succ nb ih =>
    cases balls with
    | nil => simp [matchLoop] at h
    | cons b rest =>
      rcases matchLoop_succ_cons nb b rest cs bs rem h with
        ⟨_, bs', hml, rfl⟩ | ⟨j, _, c, _, bs', hml, rfl⟩ <;>
        simp [ih _ _ _ _ hml, set_position_id]

theorem matchLoop_rem_length (nb : Nat) (balls : List Ball) (cs : List Point)
    (bs : List Ball) (rem : List Point)
    (h : matchLoop nb balls cs = some (bs, rem)) :
    rem.length = cs.length - min nb cs.length := by
  induction nb generalizing balls cs bs rem with
  | zero =>
    rw [matchLoop_zero] at h
    simp only [Option.some.injEq, Prod.mk.injEq] at h
    rw [← h.2]
    omega
  | succ nb ih =>
    cases balls with
    | nil => simp [matchLoop] at h
    | cons b rest =>
      rcases matchLoop_succ_cons nb b rest cs bs rem h with
        ⟨hcs, bs', hml, rfl⟩ | ⟨j, hj, c, _, bs', hml, rfl⟩
      · subst hcs
        have := ih _ _ _ _ hml
        simp only [List.length_nil] at this ⊢
        omega
      · have := ih _ _ _ _ hml
        rw [List.length_eraseIdx, if_pos hj] at this
        have h1 : 1 ≤ cs.length := by omega
        omega

theorem matchLoop_rem_sublist (nb : Nat) (balls : List Ball) (cs : List Point)
    (bs : List Ball) (rem : List Point)
    (h : matchLoop nb balls cs = some (bs, rem)) : rem.Sublist cs := by
  induction nb generalizing balls cs bs rem with
  | zero =>
    rw [matchLoop_zero] at h
    simp only [Option.some.injEq, Prod.mk.injEq] at h
    rw [← h.2]
  | succ nb ih =>
    cases balls with
    | nil => simp [matchLoop] at h
    | cons b rest =>
      rcases matchLoop_succ_cons nb b rest cs bs rem h with
        ⟨hcs, bs', hml, rfl⟩ | ⟨j, hj, c, _, bs', hml, rfl⟩
      · exact ih _ _ _ _ hml
      · exact (ih _ _ _ _ hml).trans (List.eraseIdx_sublist cs j)

theorem matchLoop_tail_unchanged (nb : Nat) (balls : List Ball) (cs : List Point)
    (bs : List Ball) (rem : List Point)
    (h : matchLoop nb balls cs = some (bs, rem)) :
    ∀ i, cs.length ≤ i → bs[i]? = balls[i]? := by
  induction nb generalizing balls cs bs rem with
  | zero =>
    rw [matchLoop_zero] at h
    simp only [Option.some.injEq, Prod.mk.injEq] at h
    rw [← h.1]
    exact fun i _ => rfl
  | succ nb ih =>
    cases balls with
    | nil => simp [matchLoop] at h
    | cons b rest =>
      rcases matchLoop_succ_cons nb b rest cs bs rem h with
        ⟨hcs, bs', hml, rfl⟩ | ⟨j, hj, c, _, bs', hml, rfl⟩
      · intro i hi
        cases i with
        | zero => simp
        | succ i =>
          subst hcs
          simpa using ih _ _ _ _ hml i (by simp)
      · intro i hi
        cases i with
        | zero => omega
        | succ i =>
          have hlen : (cs.eraseIdx j).length ≤ i := by
            rw [List.length_eraseIdx, if_pos hj]
            omega
          simpa using ih _ _ _ _ hml i hlen

theorem matchLoop_head_matched (nb : Nat) (balls : List Ball) (cs : List Point)
    (bs : List Ball) (rem : List Point)
    (h : matchLoop nb balls cs = some (bs, rem)) :
    ∀ i, i < cs.length → i < nb →
      ∃ c ∈ cs, bs[i]? = (balls[i]?).map (fun b => b.set_position c) := by
  induction nb generalizing balls cs bs rem with
  | zero => intro i _ hi; omega
  | succ nb ih =>
    cases balls with
    | nil => simp [matchLoop] at h
    | cons b rest =>
      rcases matchLoop_succ_cons nb b rest cs bs rem h with
        ⟨hcs, bs', hml, rfl⟩ | ⟨j, hj, c, hget, bs', hml, rfl⟩
      · intro i hi _
        subst hcs
        simp at hi
      · intro i hi _
        cases i with
        | zero =>
          refine ⟨c, ?_, by simp⟩
          rw [List.getElem?_eq_getElem hj] at hget
          simp only [Option.some.injEq] at hget
          rw [← hget]
          exact List.getElem_mem hj
        | succ i =>
          rename_i hnb
          by_cases hlt : i < (cs.eraseIdx j).length
          · obtain ⟨c', hc', hbs⟩ := ih _ _ _ _ hml i hlt (by omega)
            exact ⟨c', (List.eraseIdx_sublist cs j).mem hc', by simpa using hbs⟩
          · exfalso
            rw [List.length_eraseIdx, if_pos hj] at hlt
            omega

/-- The balls appended by the growth phase, in order: the `j`-th new ball
is `Ball(nb + 1 + j, time, c_j)` for the `j`-th remaining detection. -/
def growList (time : Int) (nb : Nat) : List Point → List Ball
  | [] => []
  | c :: cs => Ball.init (nb + 1) time c :: growList time (nb + 1) cs

theorem growLoop_eq (time : Int) (balls : List Ball) (nb : Nat) (cs : List Point) :
    growLoop time balls nb cs = (balls ++ growList time nb cs, nb + cs.length) := by
  induction cs generalizing balls nb with
  | nil => simp [growLoop, growList]
  | cons c cs ih =>
    rw [growLoop, ih, growList]
    simp only [List.append_assoc, List.singleton_append, List.length_cons]
    have harith : nb + 1 + cs.length = nb + (cs.length + 1) := by omega
    rw [harith]

theorem growList_length (time : Int) (nb : Nat) (cs : List Point) :
    (growList time nb cs).length = cs.length := by
  induction cs generalizing nb with
  | nil => rfl
  | cons c cs ih => simp [growList, ih]

theorem growList_ids (time : Int) (nb : Nat) (cs : List Point) :
    (growList time nb cs).map Ball.id = List.range' (nb + 1) cs.length := by
  induction cs generalizing nb with
  | nil => rfl
  | cons c cs ih =>
    rw [growList, List.map_cons, List.length_cons, List.range'_succ, ih]
    rfl

theorem growList_positions (time : Int) (nb : Nat) (cs : List Point) :
    (growList time nb cs).map Ball.position = cs := by
  induction cs generalizing nb with
  | nil => rfl
  | cons c cs ih => simp [growList, Ball.init, ih]

theorem growList_time0 (time : Int) (nb : Nat) (cs : List Point) :
    ∀ b ∈ growList time nb cs, b.time0 = time := by
  induction cs generalizing nb with
  | nil => simp [growList]
  | cons c cs ih =>
    intro b hb
    rw [growList, List.mem_cons] at hb
    rcases hb with rfl | hb
    · rfl
    · exact ih _ b hb

theorem detect_balls_grow (st : TerrainBalls) (cs : List Point)
    (bs : List Ball) (rem : List Point)
    (hm : matchLoop st.nb_balls st.balls cs = some (bs, rem))
    (hn : st.nb_balls < cs.length) :
    detect_balls st cs = some { st with
      balls := (bs ++ growList st.time st.nb_balls rem).map (fun b => b.set_time st.time),
      nb_balls := st.nb_balls + rem.length } := by
  rw [detect_balls]
  simp only [hm, if_pos hn, growLoop_eq]

theorem detect_balls_nogrow (st : TerrainBalls) (cs : List Point)
    (bs : List Ball) (rem : List Point)
    (hm : matchLoop st.nb_balls st.balls cs = some (bs, rem))
    (hn : ¬ st.nb_balls < cs.length) :
    detect_balls st cs = some { st with
      balls := bs.map (fun b => b.set_time st.time),
      nb_balls := st.nb_balls } := by
  rw [detect_balls]
  simp only [hm, if_neg hn]

theorem update_grow (st : TerrainBalls) (cs : List Point) (t : Int)
    (bs : List Ball) (rem : List Point)
    (hm : matchLoop st.nb_balls st.balls cs = some (bs, rem))
    (hn : st.nb_balls < cs.length) :
    update st cs t = some ⟨t, st.score,
      (bs ++ growList t st.nb_balls rem).map (fun b => b.set_time t),
      st.nb_balls + rem.length⟩ := by
  rw [update]
  exact detect_balls_grow { st with time := t } cs bs rem hm hn

theorem update_nogrow (st : TerrainBalls) (cs : List Point) (t : Int)
    (bs : List Ball) (rem : List Point)
    (hm : matchLoop st.nb_balls st.balls cs = some (bs, rem))
    (hn : ¬ st.nb_balls < cs.length) :
    update st cs t = some ⟨t, st.score,
      bs.map (fun b => b.set_time t), st.nb_balls⟩ := by
  rw [update]
  exact detect_balls_nogrow { st with time := t } cs bs rem hm hn

theorem update_some_inv (st : TerrainBalls) (cs : List Point) (t : Int)
    (st' : TerrainBalls) (h : update st cs t = some st') :
    ∃ bs rem, matchLoop st.nb_balls st.balls cs = some (bs, rem) := by
  rw [update, detect_balls] at h
  dsimp only at h
  split at h
  · exact absurd h (by simp)
  · rename_i bs rem hm
    exact ⟨bs, rem, hm⟩

theorem map_set_time_ids (l : List Ball) (t : Int) :
    (l.map (fun b => b.set_time t)).map Ball.id = l.map Ball.id := by
  rw [List.map_map]
  rfl

theorem map_set_time_positions (l : List Ball) (t : Int) :
    (l.map (fun b => b.set_time t)).map Ball.position = l.map Ball.position := by
  rw [List.map_map]
  rfl

theorem range'_take (s a b : Nat) (h : a ≤ b) :
    (List.range' s b).take a = List.range' s a := by
  obtain ⟨k, rfl⟩ := Nat.exists_eq_add_of_le h
  have hc : a + k = k + a := Nat.add_comm a k
  rw [hc, ← List.range'_append s a k 1]
  exact List.take_left' (List.length_range' s 1 a)

theorem range'_one_append (m k : Nat) :
    List.range' 1 m ++ List.range' (m + 1) k = List.range' 1 (m + k) := by
  have h := List.range'_append 1 m k 1
  have h1 : 1 + 1 * m = m + 1 := by omega
  have h2 : k + m = m + k := Nat.add_comm k m
  rw [h1, h2] at h
  exact h

/-- C2: for every update with `m` tracks going in and `n` detections, new
tracks are created iff `n > m`, exactly `n - m` many, with sequential IDs
`m+1, …, n`, creation time the frame timestamp, and positions exactly the
pool left unclaimed by the matching phase (a sublist of the detections).
The hypothesis that `nb_balls` counts the balls holds in every reachable
state (see the C4 theorem). -/
theorem c2_growth (st st' : TerrainBalls) (centers : List Point) (t : Int)
    (hinv : st.nb_balls = st.balls.length)
    (hup : update st centers t = some st') :
    (st.balls.length < st'.balls.length ↔ st.balls.length < centers.length) ∧
    st'.balls.length = max st.balls.length centers.length ∧
    (st'.balls.drop st.balls.length).map Ball.id =
      List.range' (st.balls.length + 1) (centers.length - st.balls.length) ∧
    (∀ b ∈ st'.balls.drop st.balls.length, b.time0 = t) ∧
    (∃ rem, rem.Sublist centers ∧
      (st'.balls.drop st.balls.length).map Ball.position = rem) := by
  obtain ⟨bs, rem, hm⟩ := update_some_inv st centers t st' hup
  have hbs : bs.length = st.balls.length := matchLoop_length _ _ _ _ _ hm
  have hrem : rem.length = centers.length - min st.nb_balls centers.length :=
    matchLoop_rem_length _ _ _ _ _ hm
  have hsub : rem.Sublist centers := matchLoop_rem_sublist _ _ _ _ _ hm
  by_cases hn : st.nb_balls < centers.length
  · have hn' : st.balls.length < centers.length := by omega
    have hrem' : rem.length = centers.length - st.balls.length := by
      rw [hrem, Nat.min_eq_left (Nat.le_of_lt hn), hinv]
    rw [update_grow st centers t bs rem hm hn] at hup
    obtain rfl := Option.some.inj hup
    dsimp only
    have hmapset : (bs.map (fun b => b.set_time t)).length = st.balls.length := by
      simp [hbs]
    have hdrop :
        ((bs ++ growList t st.nb_balls rem).map (fun b => b.set_time t)).drop
            st.balls.length
          = (growList t st.nb_balls rem).map (fun b => b.set_time t) := by
      rw [List.map_append]
      exact List.drop_left' hmapset
    have hlen :
        ((bs ++ growList t st.nb_balls rem).map (fun b => b.set_time t)).length
          = st.balls.length + rem.length := by
      simp [hbs, growList_length]
    refine ⟨?_, ?_, ?_, ?_, ?_⟩
    · rw [hlen]
      omega
    · rw [hlen]
      omega
    · rw [hdrop, map_set_time_ids, growList_ids, hinv, hrem']
    · intro b hb
      rw [hdrop] at hb
      obtain ⟨b', hb', rfl⟩ := List.mem_map.mp hb
      rw [set_time_time0]
      exact growList_time0 t st.nb_balls rem b' hb'
    · exact ⟨rem, hsub, by rw [hdrop, map_set_time_positions, growList_positions]⟩
  · have hn' : ¬ st.balls.length < centers.length := by omega
    rw [update_nogrow st centers t bs rem hm hn] at hup
    obtain rfl := Option.some.inj hup
    dsimp only
    have hlen : (bs.map (fun b => b.set_time t)).length = st.balls.length := by
      simp [hbs]
    have hdrop : (bs.map (fun b => b.set_time t)).drop st.balls.length = [] := by
      rw [← hlen]
      exact List.drop_length _
    refine ⟨?_, ?_, ?_, ?_, ?_⟩
    · rw [hlen]
      omega
    · rw [hlen]
      omega
    · rw [hdrop]
      have h0 : centers.length - st.balls.length = 0 := by omega
      rw [h0]
      rfl
    · intro b hb
      rw [hdrop] at hb
      exact absurd hb (by simp)
    · exact ⟨[], List.nil_sublist _, by rw [hdrop]; rfl⟩

/-- Concrete tracker state for the C2 witness: one track, id 1, at the
origin. -/
def stC2 : TerrainBalls := ⟨0, 0, [Ball.init 1 0 ⟨0, 0⟩], 1⟩

/-- The state `stC2` reaches on the frame `[(1,0), (50,50)]` at time 3:
track 1 claims `(1,0)` and a new track 2 is created at `(50,50)`. -/
def stC2' : TerrainBalls := ⟨3, 0, [⟨0, 3, 0, ⟨1, 0⟩, 1⟩, ⟨3, 0, 0, ⟨50, 50⟩, 2⟩], 2⟩

/-- Witness for C2 at the concrete input `stC2`, frame
`[(1,0), (50,50)]`, timestamp 3. -/
theorem c2_growth_witness :
    (stC2.nb_balls = stC2.balls.length ∧
      update stC2 [⟨1, 0⟩, ⟨50, 50⟩] 3 = some stC2') ∧
    ((stC2.balls.length < stC2'.balls.length ↔
        stC2.balls.length < ([⟨1, 0⟩, ⟨50, 50⟩] : List Point).length) ∧
      stC2'.balls.length
        = max stC2.balls.length ([⟨1, 0⟩, ⟨50, 50⟩] : List Point).length ∧
      (stC2'.balls.drop stC2.balls.length).map Ball.id =
        List.range' (stC2.balls.length + 1)
          (([⟨1, 0⟩, ⟨50, 50⟩] : List Point).length - stC2.balls.length) ∧
      (∀ b ∈ stC2'.balls.drop stC2.balls.length, b.time0 = 3) ∧
      (∃ rem, rem.Sublist ([⟨1, 0⟩, ⟨50, 50⟩] : List Point) ∧
        (stC2'.balls.drop stC2.balls.length).map Ball.position = rem)) :=
  ⟨⟨by decide, by decide⟩,
    c2_growth stC2 stC2' [⟨1, 0⟩, ⟨50, 50⟩] 3 (by decide) (by decide)⟩

/-- C3 (amended): when `n < m`, no track is deleted — the count stays `m`
— and the `m - n` tracks processed after the pool empties (those at
indices `n, …, m-1`, the highest IDs) keep their previous positions,
while each of the first `n` tracks is assigned one of the frame's
detections (whose coordinates may coincide with its previous position, so
the number of tracks whose position value is unchanged can exceed
`m - n`). -/
theorem c3_no_shrink (st st' : TerrainBalls) (centers : List Point) (t : Int)
    (hinv : st.nb_balls = st.balls.length)
    (hn : centers.length < st.balls.length)
    (hup : update st centers t = some st') :
    st'.balls.length = st.balls.length ∧
    (∀ i, centers.length ≤ i →
      (st'.balls[i]?).map Ball.position = (st.balls[i]?).map Ball.position) ∧
    (∀ i, i < centers.length →
      ∃ c ∈ centers, (st'.balls[i]?).map Ball.position = some c) := by
  obtain ⟨bs, rem, hm⟩ := update_some_inv st centers t st' hup
  have hbs : bs.length = st.balls.length := matchLoop_length _ _ _ _ _ hm
  have hgate : ¬ st.nb_balls < centers.length := by omega
  rw [update_nogrow st centers t bs rem hm hgate] at hup
  obtain rfl := Option.some.inj hup
  dsimp only
  refine ⟨by simp [hbs], ?_, ?_⟩
  · intro i hi
    rw [List.getElem?_map, matchLoop_tail_unchanged _ _ _ _ _ hm i hi]
    cases hc : st.balls[i]? <;> simp [set_time_position]
  · intro i hi
    obtain ⟨c, hc, hbsi⟩ := matchLoop_head_matched _ _ _ _ _ hm i hi (by omega)
    refine ⟨c, hc, ?_⟩
    rw [List.getElem?_map, hbsi]
    have hilt : i < st.balls.length := by omega
    rw [List.getElem?_eq_getElem hilt]
    simp [set_time_position, set_position_position]

/-- Concrete tracker state for C3: two tracks, id 1 at the origin and
id 2 at `(100, 100)`. -/
def stC3 : TerrainBalls :=
  ⟨0, 0, [Ball.init 1 0 ⟨0, 0⟩, Ball.init 2 0 ⟨100, 100⟩], 2⟩

/-- The state `stC3` reaches on the frame `[(0,0)]` at time 1: track 1
is matched to the detection `(0,0)` — equal to its previous position —
and track 2 is left unmatched. -/
def stC3' : TerrainBalls :=
  ⟨1, 0, [⟨0, 1, 0, ⟨0, 0⟩, 1⟩, ⟨0, 1, 0, ⟨100, 100⟩, 2⟩], 2⟩

/-- The number of tracks of `new` whose stored position equals the
position the corresponding track had in `old`. -/
def unchangedCount (old new : TerrainBalls) : Nat :=
  ((new.balls.zip old.balls).filter
    (fun p => decide (p.1.position = p.2.position))).length

/-- Counterexample to C3 as stated: with `m = 2` tracks and `n = 1`
detection the update keeps both tracks (count 2), but the number of
tracks ending the update with their position unchanged is 2, not the
claimed `m - n = 1`: track 1 was matched to a detection that coincides
with its previous position. -/
theorem c3_counterexample :
    (update stC3 [⟨0, 0⟩] 1).map
      (fun s => (s.balls.length, unchangedCount stC3 s)) = some (2, 2) := by
  decide

/-- Witness for the amended C3 at the concrete input `stC3`, frame
`[(0,0)]`, timestamp 1. -/
theorem c3_no_shrink_witness :
    (stC3.nb_balls = stC3.balls.length ∧
      ([⟨0, 0⟩] : List Point).length < stC3.balls.length ∧
      update stC3 [⟨0, 0⟩] 1 = some stC3') ∧
    (stC3'.balls.length = stC3.balls.length ∧
      (∀ i, ([⟨0, 0⟩] : List Point).length ≤ i →
        (stC3'.balls[i]?).map Ball.position = (stC3.balls[i]?).map Ball.position) ∧
      (∀ i, i < ([⟨0, 0⟩] : List Point).length →
        ∃ c ∈ ([⟨0, 0⟩] : List Point),
          (stC3'.balls[i]?).map Ball.position = some c)) :=
  ⟨⟨by decide, by decide, by decide⟩,
    c3_no_shrink stC3 stC3' [⟨0, 0⟩] 1 (by decide) (by decide) (by decide)⟩

theorem update_ids_step (st st' : TerrainBalls) (cs : List Point) (t : Int)
    (h1 : st.nb_balls = st.balls.length)
    (h2 : st.balls.map Ball.id = List.range' 1 st.balls.length)
    (hup : update st cs t = some st') :
    (st'.nb_balls = st'.balls.length ∧
      st'.balls.map Ball.id = List.range' 1 st'.balls.length) ∧
    st.balls.length ≤ st'.balls.length := by
  obtain ⟨bs, rem, hm⟩ := update_some_inv st cs t st' hup
  have hbs : bs.length = st.balls.length := matchLoop_length _ _ _ _ _ hm
  have hids : bs.map Ball.id = st.balls.map Ball.id := matchLoop_ids _ _ _ _ _ hm
  by_cases hn : st.nb_balls < cs.length
  · rw [update_grow st cs t bs rem hm hn] at hup
    obtain rfl := Option.some.inj hup
    dsimp only
    have hgl : (growList t st.nb_balls rem).map Ball.id
        = List.range' (st.balls.length + 1) rem.length := by
      rw [growList_ids, h1]
    have hlen :
        ((bs ++ growList t st.nb_balls rem).map (fun b => b.set_time t)).length
          = st.balls.length + rem.length := by
      simp [hbs, growList_length]
    refine ⟨⟨?_, ?_⟩, ?_⟩
    · rw [hlen, h1]
    · rw [map_set_time_ids, List.map_append, hids, h2, hgl, range'_one_append, hlen]
    · rw [hlen]
      omega
  · rw [update_nogrow st cs t bs rem hm hn] at hup
    obtain rfl := Option.some.inj hup
    dsimp only
    have hlen : (bs.map (fun b => b.set_time t)).length = st.balls.length := by
      simp [hbs]
    refine ⟨⟨?_, ?_⟩, ?_⟩
    · rw [hlen, h1]
    · rw [map_set_time_ids, hids, h2, hlen]
    · rw [hlen]

theorem run_ids (frames : List (List Point × Int)) (st st₂ : TerrainBalls)
    (h1 : st.nb_balls = st.balls.length)
    (h2 : st.balls.map Ball.id = List.range' 1 st.balls.length)
    (hr : run st frames = some st₂) :
    (st₂.nb_balls = st₂.balls.length ∧
      st₂.balls.map Ball.id = List.range' 1 st₂.balls.length) ∧
    st.balls.length ≤ st₂.balls.length := by
  induction frames generalizing st with
  | nil =>
    rw [run] at hr
    obtain rfl := Option.some.inj hr
    exact ⟨⟨h1, h2⟩, Nat.le_refl _⟩
  | cons fr rest ih =>
    obtain ⟨cs, t⟩ := fr
    rw [run] at hr
    split at hr
    · exact absurd hr (by simp)
    · rename_i st1 hupd
      obtain ⟨⟨g1, g2⟩, gmono⟩ := update_ids_step st st1 cs t h1 h2 hupd
      obtain ⟨⟨f1, f2⟩, fmono⟩ := ih st1 g1 g2 hr
      exact ⟨⟨f1, f2⟩, Nat.le_trans gmono fmono⟩

/-- C4: from the initial tracker state, after any sequence of completed
updates the track IDs are exactly `1, 2, …, m` in creation order —
strictly increasing integers starting at 1, pairwise distinct — and any
further sequence of updates leaves the IDs of the already-created tracks
unchanged (IDs are assigned once, never reused, also for tracks that go
permanently unmatched). -/
theorem c4_ids (t0 : Int) (frames : List (List Point × Int)) (st : TerrainBalls)
    (h : run (init_state t0) frames = some st) :
    st.balls.map Ball.id = List.range' 1 st.balls.length ∧
    ∀ frames₂ st₂, run st frames₂ = some st₂ →
      st₂.balls.map Ball.id = List.range' 1 st₂.balls.length ∧
      (st₂.balls.map Ball.id).take st.balls.length = st.balls.map Ball.id := by
  have h0 := run_ids frames (init_state t0) st rfl rfl h
  refine ⟨h0.1.2, ?_⟩
  intro frames₂ st₂ h₂
  have h1 := run_ids frames₂ st st₂ h0.1.1 h0.1.2 h₂
  refine ⟨h1.1.2, ?_⟩
  rw [h1.1.2, h0.1.2, range'_take 1 _ _ h1.2]

/-- The tracker state after the frame `[(5,5)]` at time 1, starting from
`init_state 0`: one track, id 1, at `(5,5)`. -/
def stC4 : TerrainBalls := ⟨1, 0, [⟨1, 0, 0, ⟨5, 5⟩, 1⟩], 1⟩

/-- Witness for C4: the two-frame scenario of the spec (frame 1 creates
track 1 at `(5,5)`). -/
theorem c4_ids_witness :
    run (init_state 0) [([⟨5, 5⟩], 1)] = some stC4 ∧
    (stC4.balls.map Ball.id = List.range' 1 stC4.balls.length ∧
      ∀ frames₂ st₂, run stC4 frames₂ = some st₂ →
        st₂.balls.map Ball.id = List.range' 1 st₂.balls.length ∧
        (st₂.balls.map Ball.id).take stC4.balls.length = stC4.balls.map Ball.id) :=
  ⟨by decide, c4_ids 0 [([⟨5, 5⟩], 1)] stC4 (by decide)⟩

/-- A track at the origin, used by the distance-gate counterexamples. -/
def ballFar : Ball := Ball.init 1 0 ⟨0, 0⟩

/-- C1: evaluation of the matching phase at the failing input.  With one
track at `(0,0)` and the single (hence nearest) remaining detection at
`(5000, 0)` — Euclidean distance exactly 5000 — the matching phase does
not select it: `_find_match`'s accumulator `min` starts at `5000`, the
test `n < min` never fires, `closest_ball` is never assigned and `return
closest_ball` raises `UnboundLocalError` (modelled by `none`), instead of
assigning the detection's coordinates to the track as claimed. -/
theorem c1_matching_crash : matchLoop 1 [ballFar] [⟨5000, 0⟩] = none := by
  decide

/-- C8: evaluation of `_find_match` at the failing input.  The pool is
non-empty, yet the track is not matched to its nearest remaining
detection: every candidate at distance `≥ 5000` is rejected by the
`min = 5000` initialisation, so the claimed absence of a maximum-distance
gate is contradicted (here by an `UnboundLocalError`, modelled as
`none`). -/
theorem c8_distance_gate : find_match ballFar [⟨5000, 0⟩] = none := by
  decide

/-- C9: evaluation of the tracker update at the failing input.  With one
track at `(0,0)` and the DetectionSet `[(5000, 0)]`, the update raises
(`UnboundLocalError` inside `_find_match`, modelled by `none`): the
exception reaches the caller, contradicting the claim that no anomaly
escapes `update`. -/
theorem c9_update_raises :
    update ⟨0, 0, [ballFar], 1⟩ [⟨5000, 0⟩] 1 = none := by
  decide

/-- A 2D point with real coordinates, as the float pairs `(cx, cy)`
returned by `cv.minEnclosingCircle` in `robot_detector.py`. -/
structure RPoint where
  x : ℝ
  y : ℝ

/-- A contour as returned by `cv.findContours`: a sequence of integer
pixel points (its internal structure is irrelevant to the marker logic,
which only counts contours and feeds one to `cv.minEnclosingCircle`). -/
def Contour := List Point

/-- Python `RobotDetector._detect_marker`, from the point where the contour list
of the colour mask has been extracted (the OpenCV segmentation is an
external collaborator, so the minimal-enclosing-circle computation is a
parameter): `if n_contours == 1: return minEnclosingCircle(contours[0])
centre; else return (None, None)` — drawing the circle touches no
detector state. -/
def detect_marker (minEnclosingCircle : Contour → RPoint × ℝ)
    (contours : List Contour) : Option RPoint :=
  match contours with
  | [cnt] => some (minEnclosingCircle cnt).1
  | _ => none

/-- The model of `np.arctan2 (y, x)` on real numbers: the angle in
`(-π, π]` of the vector `(x, y)`, with the IEEE branch conventions
(`atan2 0 0 = 0`, `atan2 y 0 = ±π/2`). -/
noncomputable def atan2 (y x : ℝ) : ℝ :=
  if 0 < x then Real.arctan (y / x)
  else if x < 0 then
    if 0 ≤ y then Real.arctan (y / x) + Real.pi
    else Real.arctan (y / x) - Real.pi
  else if 0 < y then Real.pi / 2
  else if y < 0 then -(Real.pi / 2)
  else 0

/-- The pose state of `RobotDetector.__init__`: `_position = [0, 0]`,
`_heading = 0`, `_timestamp = 0` (the image, HSV finder, camera node and
debug/display flags are external collaborators and carry no pose
state). -/
structure RobotDetectorState where
  position : RPoint
  heading : ℝ
  timestamp : Int

/-- Pose fields of `RobotDetector.__init__`. -/
def robot_init : RobotDetectorState := ⟨⟨0, 0⟩, 0, 0⟩

/-- The pose-update core of `RobotDetector._camera_data_updated_callback`,
given the two marker detection results (`(None, None)` is modelled as
`none`): if `front_m_pos[0] is not None and rear_m_pos[0] is not None`,
set `_heading = arctan2(front[1] - rear[1], front[0] - rear[0])`,
`_position = [rear[0], rear[1]]`, `_timestamp = timestamp` and fire
`data_updated_callback(_position, _heading, _timestamp)` (the fired
callback payload is the second component, `none` when nothing fires);
otherwise every pose field is left untouched.  Debug printing and the
display window touch no pose state. -/
noncomputable def camera_data_updated_callback (st : RobotDetectorState)
    (front_m_pos rear_m_pos : Option RPoint) (timestamp : Int) :
    RobotDetectorState × Option (RPoint × ℝ × Int) :=
  match front_m_pos, rear_m_pos with
  | some f, some r =>
    let heading := atan2 (f.y - r.y) (f.x - r.x)
    (⟨⟨r.x, r.y⟩, heading, timestamp⟩, some (⟨r.x, r.y⟩, heading, timestamp))
  | _, _ => (st, none)

/-- Python `RobotDetector.get_heading`. -/
def get_heading (st : RobotDetectorState) : ℝ := st.heading

/-- Python `RobotDetector.get_position`. -/
def get_position (st : RobotDetectorState) : RPoint := st.position

/-- A sequence of camera frames fed to the callback in arrival order,
each frame presented by its two marker detection outcomes and its
timestamp. -/
noncomputable def robot_run (st : RobotDetectorState) :
    List (Option RPoint × Option RPoint × Int) → RobotDetectorState
  | [] => st
  | (f, r, t) :: rest => robot_run (camera_data_updated_callback st f r t).1 rest

theorem camera_skip (st : RobotDetectorState) (front rear : Option RPoint)
    (t : Int) (h : front = none ∨ rear = none) :
    camera_data_updated_callback st front rear t = (st, none) := by
  rcases h with rfl | rfl
  · rfl
  · cases front <;> rfl

/-- C5: whenever the front or the rear marker detection fails, the pose
estimator's update leaves the stored pose (position, heading and
timestamp) entirely unchanged and fires no update callback; the state
only changes in the both-markers branch. -/
theorem c5_pose_gating (st : RobotDetectorState) (front rear : Option RPoint)
    (t : Int) (h : front = none ∨ rear = none) :
    camera_data_updated_callback st front rear t = (st, none) :=
  camera_skip st front rear t h

/-- Witness for C5: a frame whose front detection failed leaves the
initial pose untouched and fires nothing. -/
theorem c5_pose_gating_witness :
    ((none : Option RPoint) = none ∨ (some ⟨1, 2⟩ : Option RPoint) = none) ∧
    camera_data_updated_callback robot_init none (some ⟨1, 2⟩) 5 =
      (robot_init, none) :=
  ⟨Or.inl rfl, c5_pose_gating robot_init none (some ⟨1, 2⟩) 5 (Or.inl rfl)⟩

/-- C6: single-blob marker detection returns a point iff exactly one
connected region was found, and that point is the centre of the region's
minimal enclosing circle; with zero or several regions it returns "not
found" (`none`). -/
theorem c6_single_blob (mEC : Contour → RPoint × ℝ) (cs : List Contour)
    (p : RPoint) :
    (detect_marker mEC cs = some p ↔ ∃ c, cs = [c] ∧ p = (mEC c).1) ∧
    (detect_marker mEC cs = none ↔ cs.length ≠ 1) := by
  match cs with
  | [] =>
    constructor
    · constructor
      · intro h
        exact absurd h (by simp [detect_marker])
      · rintro ⟨c, hc, -⟩
        cases hc
    · simp [detect_marker]
  | [c] =>
    constructor
    · constructor
      · intro h
        rw [detect_marker] at h
        exact ⟨c, rfl, (Option.some.inj h).symm⟩
      · rintro ⟨c', hc', rfl⟩
        obtain rfl : c = c' := by injection hc'
        rfl
    · simp [detect_marker]
  | a :: b :: rest =>
    constructor
    · constructor
      · intro h
        exact absurd h (by simp [detect_marker])
      · rintro ⟨c, hc, -⟩
        cases hc
    · simp [detect_marker]

/-- C7: when both markers are detected, the published position is the
rear marker's point and the published heading is
`atan2(front.y - rear.y, front.x - rear.x)`; at the concrete inputs,
front `(10, 0)` with rear `(0, 0)` gives heading 0, and front `(0, -10)`
with rear `(0, 0)` gives heading `-π/2`. -/
theorem c7_heading (st : RobotDetectorState) (f r : RPoint) (t : Int) :
    (camera_data_updated_callback st (some f) (some r) t).1.position = ⟨r.x, r.y⟩ ∧
    (camera_data_updated_callback st (some f) (some r) t).1.heading =
      atan2 (f.y - r.y) (f.x - r.x) ∧
    (camera_data_updated_callback st (some ⟨10, 0⟩) (some ⟨0, 0⟩) t).1.heading = 0 ∧
    (camera_data_updated_callback st (some ⟨0, -10⟩) (some ⟨0, 0⟩) t).1.heading =
      -(Real.pi / 2) := by
  refine ⟨rfl, rfl, ?_, ?_⟩
  · show atan2 ((0 : ℝ) - 0) (10 - 0) = 0
    rw [atan2, if_pos (by norm_num : (0 : ℝ) < 10 - 0)]
    norm_num [Real.arctan_zero]
  · show atan2 ((-10 : ℝ) - 0) (0 - 0) = -(Real.pi / 2)
    rw [atan2, if_neg (by norm_num : ¬ (0 : ℝ) < 0 - 0),
      if_neg (by norm_num : ¬ (0 : ℝ) - 0 < 0),
      if_neg (by norm_num : ¬ (0 : ℝ) < -10 - 0),
      if_pos (by norm_num : (-10 : ℝ) - 0 < 0)]

theorem robot_run_skip (st : RobotDetectorState)
    (frames : List (Option RPoint × Option RPoint × Int))
    (h : ∀ fr ∈ frames, fr.1 = none ∨ fr.2.1 = none) :
    robot_run st frames = st := by
  induction frames with
  | nil => rfl
  | cons fr rest ih =>
    obtain ⟨f, r, t⟩ := fr
    rw [robot_run, camera_skip st f r t (h _ (List.mem_cons_self _ _))]
    exact ih (fun fr hfr => h fr (List.mem_cons_of_mem _ hfr))

/-- C10: before the first frame on which both markers are detected
simultaneously, the pull accessors return the initial pose:
`get_position` gives `(0, 0)`, `get_heading` gives 0, and the stored
timestamp is 0. -/
theorem c10_initial_pose (frames : List (Option RPoint × Option RPoint × Int))
    (h : ∀ fr ∈ frames, fr.1 = none ∨ fr.2.1 = none) :
    get_position (robot_run robot_init frames) = ⟨0, 0⟩ ∧
    get_heading (robot_run robot_init frames) = 0 ∧
    (robot_run robot_init frames).timestamp = 0 := by
  rw [robot_run_skip robot_init frames h]
  exact ⟨rfl, rfl, rfl⟩

/-- Witness for C10: one frame whose front marker is missing. -/
theorem c10_initial_pose_witness :
    (∀ fr ∈ [((none : Option RPoint), (some ⟨3, 4⟩ : Option RPoint), (7 : Int))],
      fr.1 = none ∨ fr.2.1 = none) ∧
    (get_position (robot_run robot_init [(none, some ⟨3, 4⟩, 7)]) = ⟨0, 0⟩ ∧
      get_heading (robot_run robot_init [(none, some ⟨3, 4⟩, 7)]) = 0 ∧
      (robot_run robot_init [(none, some ⟨3, 4⟩, 7)]).timestamp = 0) :=
  ⟨fun fr hfr => by
      rw [List.mem_singleton] at hfr
      rw [hfr]
      exact Or.inl rfl,
    c10_initial_pose [(none, some ⟨3, 4⟩, 7)]
      (fun fr hfr => by
        rw [List.mem_singleton] at hfr
        rw [hfr]
        exact Or.inl rfl)⟩

end TopCamera
